import Mathlib

/-!
Verification development for the AlignAI frontend and its analysis-engine
contract.  Definitions are shallow embeddings of the JavaScript sources
(`frontend/src/services/api.js`, `AnalysisContext`, `DocumentUpload`,
`HistoryPage`, `AnalysisResults`, `SkillGapChart`); parts of the engine that
live behind the HTTP API are modelled from the specification, and each such
definition says so in its doc comment.
-/

namespace AlignAI

/-! ## api.js: request payload construction and the response interceptor -/

/-- The JSON payload sent by `POST /api/v1/analyze`.  `target_role = none`
means the field is absent from the payload object. -/
structure AnalyzePayload where
  resume_id : String
  jd_id : String
  target_role : Option String
deriving Repr, DecidableEq

/-- JavaScript truthiness for an optional string: `null`/`undefined` and the
empty string are falsy, every other string is truthy. -/
def strTruthy : Option String → Bool
  | none => false
  | some s => s ≠ ""

/-- Embeds `analyzeResume` from `api.js`: the payload starts as
`{resume_id, jd_id}` and `target_role` is added only when `targetRole` is
truthy (`if (targetRole) payload.target_role = targetRole`). -/
def analyzeResume (resumeId jdId : String) (targetRole : Option String) :
    AnalyzePayload :=
  { resume_id := resumeId
    jd_id := jdId
    target_role := if strTruthy targetRole then targetRole else none }

/-- The `data` object of an error response: `detail` and `message` are
optional fields (`none` = absent/undefined). -/
structure RespData where
  detail : Option String
  message : Option String
deriving Repr, DecidableEq

/-- `error.response`: present when the server answered; its `data` may itself
be absent (the code reads it with `error.response.data?.detail`). -/
structure Resp where
  data : Option RespData
deriving Repr, DecidableEq

/-- The axios error object as the response interceptor inspects it:
`response` (set when the server answered), `request` (set when a request was
sent), and the underlying `message`. -/
structure AxiosErr where
  response : Option Resp
  request : Bool
  message : Option String
deriving Repr, DecidableEq

/-- `a || b` on an optional string against a string default: returns `a`
when it is truthy, otherwise `b`. -/
def orFalsy (a : Option String) (b : String) : String :=
  match a with
  | some s => if s = "" then b else s
  | none => b

/-- Embeds the error branch of `api.interceptors.response.use` in `api.js`:
the single message of the `Error` thrown to the caller. -/
def interceptorErrorMessage (e : AxiosErr) : String :=
  match e.response with
  | some r =>
      orFalsy (r.data.bind (·.detail)) (orFalsy (r.data.bind (·.message)) "Server error")
  | none =>
      if e.request then
        "No response from server. Please check your connection."
      else
        orFalsy e.message "An unexpected error occurred"

/-! ## DocumentUpload.jsx: file validation and the paste-text path -/

/-- JavaScript `String.prototype.trim()`: strip leading and trailing
whitespace characters. -/
def jsTrim (s : String) : String :=
  String.mk (((s.data.dropWhile Char.isWhitespace).reverse.dropWhile
    Char.isWhitespace).reverse)

/-- JavaScript `String.prototype.split(sep)` for a one-character separator,
over the character list of the string. -/
def splitOnChar (c : Char) : List Char → List (List Char)
  | [] => [[]]
  | x :: xs =>
    let r := splitOnChar c xs
    if x = c then [] :: r
    else (x :: r.headD []) :: r.tail

/-- JavaScript `String.prototype.toLowerCase()` on one ASCII character. -/
def jsToLowerChar (ch : Char) : Char :=
  if 'A' ≤ ch ∧ ch ≤ 'Z' then Char.ofNat (ch.toNat + 32) else ch

/-- `'.' + file.name.split('.').pop().toLowerCase()` from `handleFile`. -/
def fileExtension (name : String) : String :=
  String.mk ('.' :: (((splitOnChar '.' name.data).getLastD []).map jsToLowerChar))

/-- A `File` object as `handleFile` inspects it: name and size in bytes. -/
structure JsFile where
  name : String
  size : Nat
deriving Repr, DecidableEq

/-- Outcome of `handleFile`: the file is stored as `selectedFile`, or an
alert is shown and the file is dropped. -/
inductive FileCheck where
  | accepted (f : JsFile)
  | rejectedType
  | rejectedSize (maxSizeMB : Nat)
deriving Repr, DecidableEq

/-- Embeds `handleFile` from `DocumentUpload.jsx`: reject when the extension
is not in `acceptedTypes`; otherwise compute
`maxSize = acceptedTypes.includes('.pdf') ? 6MB : 3MB` and reject when
`file.size > maxSize`; otherwise keep the file. -/
def handleFile (acceptedTypes : List String) (f : JsFile) : FileCheck :=
  if fileExtension f.name ∈ acceptedTypes then
    let maxSize := if ".pdf" ∈ acceptedTypes then 6 * 1024 * 1024 else 3 * 1024 * 1024
    if f.size > maxSize then .rejectedSize (maxSize / (1024 * 1024))
    else .accepted f
  else .rejectedType

/-- The `acceptedTypes` prop of the job-description uploader in
`AnalysisPage`. -/
def jdAcceptedTypes : List String := [".pdf", ".txt"]

/-- The `acceptedTypes` prop of the resume uploader in `AnalysisPage`. -/
def resumeAcceptedTypes : List String := [".pdf", ".docx"]

/-- Embeds `handleTextUpload` from `DocumentUpload.jsx`: `onTextUpload` is
called with `textInput.trim()` exactly when `textInput.trim()` is truthy;
`some v` is the value passed to `onTextUpload`, `none` means it is not
called. -/
def handleTextUpload (textInput : String) : Option String :=
  if jsTrim textInput ≠ "" then some (jsTrim textInput) else none

/-- The `disabled={!textInput.trim()}` condition of the Submit Text
button. -/
def submitTextDisabled (textInput : String) : Bool :=
  jsTrim textInput = ""

/-! ## HistoryPage.jsx: score bands and the stats summary -/

/-- One item of the analysis history list. -/
structure HistoryItem where
  analysis_id : String
  resume_id : String
  jd_id : String
  score : ℚ
  created_at : String
deriving Repr, DecidableEq

namespace HistoryPage

/-- `getScoreColor` from `HistoryPage.jsx`. -/
def getScoreColor (score : ℚ) : String :=
  if score ≥ 80 then "text-green-600 bg-green-100"
  else if score ≥ 60 then "text-yellow-600 bg-yellow-100"
  else "text-red-600 bg-red-100"

/-- `getScoreBand` from `HistoryPage.jsx`. -/
def getScoreBand (score : ℚ) : String :=
  if score ≥ 80 then "Strong"
  else if score ≥ 60 then "Moderate"
  else "Low"

/-- `history.filter(item => item.score >= 80).length` — the "Strong
Matches" counter of the stats summary. -/
def strongCount (history : List HistoryItem) : Nat :=
  (history.filter (fun item => item.score ≥ 80)).length

/-- `history.filter(item => item.score >= 60 && item.score < 80).length` —
the "Moderate Matches" counter. -/
def moderateCount (history : List HistoryItem) : Nat :=
  (history.filter (fun item => item.score ≥ 60 ∧ item.score < 80)).length

/-- `history.filter(item => item.score < 60).length` — the "Low Matches"
counter. -/
def lowCount (history : List HistoryItem) : Nat :=
  (history.filter (fun item => item.score < 60)).length

end HistoryPage

/-! ## AnalysisResults.jsx: its own score band helpers -/

namespace AnalysisResults

/-- `getScoreColor` from `AnalysisResults.jsx`. -/
def getScoreColor (score : ℚ) : String :=
  if score ≥ 80 then "text-green-600"
  else if score ≥ 60 then "text-yellow-600"
  else "text-red-600"

/-- `getScoreBand` from `AnalysisResults.jsx`. -/
def getScoreBand (score : ℚ) : String :=
  if score ≥ 80 then "Strong Match"
  else if score ≥ 60 then "Moderate Match"
  else "Low Match"

/-- `getScoreBandColor` from `AnalysisResults.jsx`. -/
def getScoreBandColor (score : ℚ) : String :=
  if score ≥ 80 then "bg-green-100 text-green-800"
  else if score ≥ 60 then "bg-yellow-100 text-yellow-800"
  else "bg-red-100 text-red-800"

end AnalysisResults

/-! ## The AnalysisResult object shared by the engine and the frontend -/

/-- An entry of `matched_skills`: canonical id, display name and the
resume-side confidence. -/
structure MatchedSkill where
  canonical_id : String
  name : String
  confidence : ℚ
deriving Repr, DecidableEq

/-- An entry of `missing_skills` or `nice_to_have_skills`: canonical id,
display name and the job-side importance. -/
structure GapSkill where
  canonical_id : String
  name : String
  importance : ℚ
deriving Repr, DecidableEq

/-- The three component scores of an analysis. -/
structure ScoreComponents where
  semantic_similarity : ℚ
  skill_coverage : ℚ
  experience_alignment : ℚ
deriving Repr, DecidableEq

/-- One evidence snippet. -/
structure Snippet where
  text : String
deriving Repr, DecidableEq

/-- The `AnalysisResult` object of the data model: overall score, component
scores, the three skill lists, rule-generated text lists and evidence
snippets. -/
structure AnalysisResult where
  score : ℤ
  components : ScoreComponents
  matched_skills : List MatchedSkill
  missing_skills : List GapSkill
  nice_to_have_skills : List GapSkill
  strengths : List String
  risks : List String
  recommendations : List String
  resume_snippets : List Snippet
  jd_snippets : List Snippet
deriving Repr, DecidableEq

/-! ## SkillGapChart.jsx: prepareChartData -/

/-- One bar of the skill-gap chart, as pushed by `prepareChartData`. -/
structure ChartEntry where
  name : String
  importance : ℤ
  confidence : ℤ
  kind : String
  color : String
deriving Repr, DecidableEq

/-- JavaScript `Math.round`: round half-up. -/
def jsRound (q : ℚ) : ℤ := ⌊q + 1 / 2⌋

/-- The entry pushed for a matched skill: full importance, rounded
confidence percentage, type `matched`, green. -/
def matchedEntry (s : MatchedSkill) : ChartEntry :=
  ⟨s.name, 100, jsRound (s.confidence * 100), "matched", "#10B981"⟩

/-- The entry pushed for a missing skill: rounded importance percentage,
zero confidence, type `missing`, red. -/
def missingEntry (s : GapSkill) : ChartEntry :=
  ⟨s.name, jsRound (s.importance * 100), 0, "missing", "#EF4444"⟩

/-- The entry pushed for a nice-to-have skill: rounded importance
percentage, zero confidence, type `nice_to_have`, blue. -/
def niceEntry (s : GapSkill) : ChartEntry :=
  ⟨s.name, jsRound (s.importance * 100), 0, "nice_to_have", "#3B82F6"⟩

/-- Embeds `prepareChartData` from `SkillGapChart.jsx`: one entry per skill
of the three lists in order, sorted by importance descending, truncated to
the top 15. -/
def prepareChartData (a : AnalysisResult) : List ChartEntry :=
  ((a.matched_skills.map matchedEntry ++ a.missing_skills.map missingEntry ++
      a.nice_to_have_skills.map niceEntry).mergeSort
    (fun x y => decide (y.importance ≤ x.importance))).take 15

/-! ## AnalysisContext.jsx: state, reducer, performAnalysis -/

/-- The response object of an upload request (only the fields the state
machine reads). -/
structure UploadedDoc where
  document_id : String
deriving Repr, DecidableEq

/-- The context state held by `useReducer` in `AnalysisContext.jsx`. -/
structure AppState where
  resume : Option UploadedDoc
  jobDescription : Option UploadedDoc
  analysis : Option AnalysisResult
  history : List HistoryItem
  loading : Bool
  error : Option String
  currentStep : String
deriving Repr, DecidableEq

/-- `initialState` from `AnalysisContext.jsx`. -/
def initialState : AppState :=
  { resume := none
    jobDescription := none
    analysis := none
    history := []
    loading := false
    error := none
    currentStep := "upload" }

/-- The actions dispatched to `analysisReducer`; `other` stands for any
unrecognised action type (the reducer's `default` branch). -/
inductive Action where
  | setResume (payload : UploadedDoc)
  | setJobDescription (payload : UploadedDoc)
  | setAnalysis (payload : AnalysisResult)
  | setLoading (payload : Bool)
  | setError (payload : String)
  | setCurrentStep (payload : String)
  | setHistory (payload : List HistoryItem)
  | reset
  | clearError
  | other
deriving Repr, DecidableEq

/-- Embeds `analysisReducer` from `AnalysisContext.jsx`. -/
def analysisReducer (state : AppState) : Action → AppState
  | .setResume p => { state with resume := some p, error := none }
  | .setJobDescription p => { state with jobDescription := some p, error := none }
  | .setAnalysis p =>
      { state with analysis := some p, currentStep := "results", error := none }
  | .setLoading p => { state with loading := p }
  | .setError p => { state with error := some p, loading := false }
  | .setCurrentStep p => { state with currentStep := p }
  | .setHistory p => { state with history := p }
  | .reset => { initialState with history := state.history }
  | .clearError => { state with error := none }
  | .other => state

/-- The external world as `performAnalysis` sees it: the outcome of the
`POST /api/v1/analyze` call and of the follow-up `getHistory` call. -/
structure ServerEnv where
  analyzeResp : Except String AnalysisResult
  historyResp : Except String (List HistoryItem)
deriving Repr

/-- Embeds `loadHistory` from `AnalysisContext.jsx`: dispatch `SET_HISTORY`
on success, swallow the error (only `console.error`) on failure. -/
def loadHistory (env : ServerEnv) (s : AppState) : AppState :=
  match env.historyResp with
  | .ok h => analysisReducer s (.setHistory h)
  | .error _ => s

/-- Embeds `performAnalysis` from `AnalysisContext.jsx` as a state
transition.  Returns the final state, the list of analyze payloads actually
sent, and the value returned or error re-thrown to the caller.  The guard
throws before any dispatch; the `catch` block dispatches `SET_ERROR` then
`SET_CURRENT_STEP 'upload'`; the `finally` block dispatches
`SET_LOADING false` on every path. -/
def performAnalysis (env : ServerEnv) (s : AppState)
    (targetRole : Option String) :
    AppState × List AnalyzePayload × Except String AnalysisResult :=
  match s.resume, s.jobDescription with
  | some r, some j =>
      let s1 := analysisReducer s (.setLoading true)
      let s2 := analysisReducer s1 (.setCurrentStep "analyzing")
      let s3 := analysisReducer s2 .clearError
      let payload := analyzeResume r.document_id j.document_id targetRole
      (match env.analyzeResp with
      | .ok a =>
          let s4 := analysisReducer s3 (.setAnalysis a)
          let s5 := loadHistory env s4
          let s6 := analysisReducer s5 (.setLoading false)
          (s6, [payload], .ok a)
      | .error msg =>
          let s4 := analysisReducer s3 (.setError msg)
          let s5 := analysisReducer s4 (.setCurrentStep "upload")
          let s6 := analysisReducer s5 (.setLoading false)
          (s6, [payload], .error msg))
  | _, _ =>
      let msg := "Both resume and job description are required"
      let s1 := analysisReducer s (.setError msg)
      let s2 := analysisReducer s1 (.setCurrentStep "upload")
      let s3 := analysisReducer s2 (.setLoading false)
      (s3, [], .error msg)

/-! ## The analysis engine, modelled from the specification

The engine itself lives behind the HTTP API and is not part of the frontend
sources; the definitions in this section are modelled from the
specification (sections 3, 4.1–4.3 and 8). -/

/-- Modelled from the spec: one `SkillOntologyEntry` of the static Skill
Ontology (canonical id, display name, default importance hint). -/
structure OntologyEntry where
  canonical_id : String
  display_name : String
  default_weight : ℚ
deriving Repr, DecidableEq

/-- Modelled from the spec: one raw detection of the hybrid extractor
before the merge step — a candidate `SkillMention` with its confidence,
whether its evidence falls in a "preferred/nice to have" section, and its
evidence snippets. -/
structure Detection where
  canonical_id : String
  confidence : ℚ
  preferredSection : Bool
  evidence : List String
deriving Repr, DecidableEq

/-- The canonical ids of an ontology. -/
def ontoIds (onto : List OntologyEntry) : List String :=
  onto.map (·.canonical_id)

/-- Recursion core of `dedupById`: keep each detection whose canonical id
was not seen before. -/
def dedupByIdGo (seen : List String) : List Detection → List Detection
  | [] => []
  | d :: ds =>
      if d.canonical_id ∈ seen then dedupByIdGo seen ds
      else d :: dedupByIdGo (d.canonical_id :: seen) ds

/-- Modelled from the spec: the merge step of the extractor groups all
detections by `canonical_id`, so each id is reported at most once; this
keeps the first detection of each id. -/
def dedupById (l : List Detection) : List Detection := dedupByIdGo [] l

/-- Modelled from the spec: `extract(text, sections)` returns mentions only
for canonical ids present in the ontology (unknown terms are silently
dropped), one mention per canonical id after the merge step. -/
def extract (onto : List OntologyEntry) (ds : List Detection) : List Detection :=
  dedupById (ds.filter (fun d => d.canonical_id ∈ ontoIds onto))

/-- Modelled from the spec: the match-confidence threshold (an
implementation-tunable constant, the spec suggests 0.5). -/
def matchThreshold : ℚ := mkRat 1 2

/-- Modelled from the spec: the per-tier decay of experience alignment (an
implementation-tunable constant). -/
def tierDecay : ℚ := mkRat 1 3

/-- The confidence with which the resume mentions a canonical id, when it
does. -/
def resumeConfidence (resume : List Detection) (id : String) : Option ℚ :=
  (resume.find? (fun r => r.canonical_id = id)).map (·.confidence)

/-- The ontology `default_weight` of a canonical id (0 when absent). -/
def ontoWeight (onto : List OntologyEntry) (id : String) : ℚ :=
  ((onto.find? (fun e => e.canonical_id = id)).map (·.default_weight)).getD 0

/-- The ontology display name of a canonical id (the id itself when
absent). -/
def displayName (onto : List OntologyEntry) (id : String) : String :=
  ((onto.find? (fun e => e.canonical_id = id)).map (·.display_name)).getD id

/-- Modelled from the spec: the importance of a job-side skill, derived
from its ontology `default_weight`, its detected confidence in the job
text, and a positional boost when its evidence falls in a requirements
section rather than a preferred section; capped at 1. -/
def importanceOf (onto : List OntologyEntry) (j : Detection) : ℚ :=
  min 1 (ontoWeight onto j.canonical_id * j.confidence *
    (if j.preferredSection then 1 else mkRat 6 5))

/-- The three categories of the skill classification. -/
inductive SkillClass where
  | matched
  | missing
  | niceToHave
deriving Repr, DecidableEq

/-- Modelled from the spec: the fallback category of a job skill the resume
does not match — `nice_to_have` when its evidence sits in a
preferred/nice-to-have section, `missing` otherwise. -/
def sectionClass (j : Detection) : SkillClass :=
  if j.preferredSection then .niceToHave else .missing

/-- Modelled from the spec: classification of one job-side skill.  If the
same canonical id appears in the resume's mention set with confidence at or
above the match threshold it is `matched`; otherwise the section fallback
applies. -/
def classifySkill (resume : List Detection) (j : Detection) : SkillClass :=
  match resumeConfidence resume j.canonical_id with
  | some c => if matchThreshold ≤ c then .matched else sectionClass j
  | none => sectionClass j

/-- Modelled from the spec: the `matched_skills` list — the job skills the
resume matches, each carrying the resume-side confidence. -/
def matchedSkills (onto : List OntologyEntry) (resume jobs : List Detection) :
    List MatchedSkill :=
  (jobs.filter (fun j => classifySkill resume j = .matched)).map (fun j =>
    { canonical_id := j.canonical_id
      name := displayName onto j.canonical_id
      confidence := (resumeConfidence resume j.canonical_id).getD 0 })

/-- Modelled from the spec: the `missing_skills` list, each entry carrying
the job-side importance. -/
def missingSkills (onto : List OntologyEntry) (resume jobs : List Detection) :
    List GapSkill :=
  (jobs.filter (fun j => classifySkill resume j = .missing)).map (fun j =>
    { canonical_id := j.canonical_id
      name := displayName onto j.canonical_id
      importance := importanceOf onto j })

/-- Modelled from the spec: the `nice_to_have_skills` list, each entry
carrying the job-side importance. -/
def niceToHaveSkills (onto : List OntologyEntry) (resume jobs : List Detection) :
    List GapSkill :=
  (jobs.filter (fun j => classifySkill resume j = .niceToHave)).map (fun j =>
    { canonical_id := j.canonical_id
      name := displayName onto j.canonical_id
      importance := importanceOf onto j })

/-- Modelled from the spec: skill coverage — matched importance over
matched-plus-missing importance; 1 when the job has no required importance
(never undefined), and nice-to-have skills are excluded from the
denominator. -/
def skillCoverage (onto : List OntologyEntry) (resume jobs : List Detection) : ℚ :=
  let m := ((jobs.filter (fun j => classifySkill resume j = .matched)).map
    (importanceOf onto)).sum
  let mi := m + ((jobs.filter (fun j => classifySkill resume j = .missing)).map
    (importanceOf onto)).sum
  if mi = 0 then 1 else m / mi

/-- Modelled from the spec: experience alignment — 1 when the resume's
seniority tier reaches the job's required tier (or the job states none),
decaying linearly per tier of shortfall, floored at 0. -/
def experienceAlignment (resumeTier : Nat) (jobTier : Option Nat) : ℚ :=
  match jobTier with
  | none => 1
  | some j =>
      if j ≤ resumeTier then 1
      else max 0 (1 - ((j : ℚ) - (resumeTier : ℚ)) * tierDecay)

/-- Modelled from the spec: the component weights `{w1, w2, w3}`. -/
structure Weights where
  w1 : ℚ
  w2 : ℚ
  w3 : ℚ
deriving Repr, DecidableEq

/-- Modelled from the spec: the default weights w1=0.3, w2=0.5, w3=0.2. -/
def defaultWeights : Weights := ⟨mkRat 3 10, mkRat 1 2, mkRat 1 5⟩

/-- Modelled from the spec: everything the engine consumes for one call —
the static ontology, the raw detections of the two documents (stand-ins for
the two normalized texts the deterministic detectors scan), the cosine
similarity delivered by the embedding service (`none` when the service
failed), the seniority signals, the optional target role and the weights. -/
structure EngineInputs where
  ontology : List OntologyEntry
  resumeDetections : List Detection
  jobDetections : List Detection
  rawSimilarity : Option ℚ
  resumeTier : Nat
  jobTier : Option Nat
  targetRole : Option String
  weights : Weights
deriving Repr

/-- Modelled from the spec: ordering of skills for output lists —
importance descending, ties broken by alphabetical canonical id. -/
def importanceOrder (onto : List OntologyEntry) (x y : Detection) : Bool :=
  decide (importanceOf onto y < importanceOf onto x) ||
    (decide (importanceOf onto y = importanceOf onto x) &&
      decide (x.canonical_id ≤ y.canonical_id))

/-- Modelled from the spec: `analyze` — the full pipeline as a function of
its inputs: extract both documents, rescale the similarity, classify and
weigh the job skills, compute coverage and experience alignment, combine
with the weights, and generate the rule-based strengths, risks,
recommendations and snippets. -/
def analyze (inp : EngineInputs) : AnalysisResult :=
  let onto := inp.ontology
  let resume := extract onto inp.resumeDetections
  let jobs := extract onto inp.jobDetections
  let semantic : ℚ :=
    match inp.rawSimilarity with
    | some sim => (sim + 1) / 2
    | none => 0
  let coverage := skillCoverage onto resume jobs
  let experience := experienceAlignment inp.resumeTier inp.jobTier
  let w := inp.weights
  let score := jsRound (100 * (w.w1 * semantic + w.w2 * coverage + w.w3 * experience))
  let matchedJobs :=
    (jobs.filter (fun j => classifySkill resume j = .matched)).mergeSort
      (importanceOrder onto)
  let missingJobs :=
    (jobs.filter (fun j => classifySkill resume j = .missing)).mergeSort
      (importanceOrder onto)
  let strengths :=
    (matchedJobs.take 3).map
      (fun j => "Strong match: " ++ displayName onto j.canonical_id) ++
    (if mkRat 4 5 ≤ coverage then ["Strong skill coverage"] else [])
  let risks :=
    (missingJobs.filter (fun j => mkRat 3 10 ≤ importanceOf onto j)).map
      (fun j => "Missing skill: " ++ displayName onto j.canonical_id) ++
    (if inp.jobTier = none then
      ["Experience requirement not detected (low confidence)"] else []) ++
    (if inp.rawSimilarity = none then
      ["Semantic similarity unavailable (degraded result)"] else [])
  let recommendations :=
    (missingJobs.filter (fun j => mkRat 3 10 ≤ importanceOf onto j)).map
      (fun j => "Add demonstrated experience with " ++ displayName onto j.canonical_id)
  { score := score
    components :=
      { semantic_similarity := semantic
        skill_coverage := coverage
        experience_alignment := experience }
    matched_skills := matchedSkills onto resume jobs
    missing_skills := missingSkills onto resume jobs
    nice_to_have_skills := niceToHaveSkills onto resume jobs
    strengths := strengths
    risks := risks
    recommendations := recommendations
    resume_snippets := matchedJobs.filterMap (fun j =>
      ((resume.find? (fun r => r.canonical_id = j.canonical_id)).bind
        (·.evidence.head?)).map Snippet.mk)
    jd_snippets := matchedJobs.filterMap (fun j => j.evidence.head?.map Snippet.mk) }

/-- Modelled from the spec: the context of one invocation of `analyze`
that may vary between repeated calls — a call counter and a wall-clock
timestamp.  The spec mandates that the result not depend on it. -/
structure CallEnv where
  callIndex : Nat
  timestampMs : Nat
deriving Repr, DecidableEq

/-- Modelled from the spec: one invocation of `analyze` in a concrete call
context.  The pipeline reads nothing from the context: no randomness, no
shared mutable state. -/
def analyzeCall (_env : CallEnv) (inp : EngineInputs) : AnalysisResult :=
  analyze inp

/-! ## Theorems -/

/-- C1: every payload built by `analyzeResume(resumeId, jdId, targetRole)`
carries `resume_id = resumeId` and `jd_id = jdId`; `target_role` equals
`targetRole` exactly when `targetRole` is truthy, and is absent when
`targetRole` is null/undefined or the empty string. -/
theorem analyzeResume_payload_spec (resumeId jdId : String)
    (targetRole : Option String) :
    (analyzeResume resumeId jdId targetRole).resume_id = resumeId ∧
    (analyzeResume resumeId jdId targetRole).jd_id = jdId ∧
    (∀ t : String, targetRole = some t → t ≠ "" →
      (analyzeResume resumeId jdId targetRole).target_role = some t) ∧
    (targetRole = none ∨ targetRole = some "" →
      (analyzeResume resumeId jdId targetRole).target_role = none) := by
  refine ⟨rfl, rfl, ?_, ?_⟩
  · rintro t rfl ht
    simp [analyzeResume, strTruthy, ht]
  · rintro (rfl | rfl) <;> simp [analyzeResume, strTruthy]

/-- Witness for C1 at a concrete call. -/
theorem analyzeResume_payload_spec_witness :
    (analyzeResume "resume-1" "jd-1" (some "Senior Engineer")).target_role =
      some "Senior Engineer" :=
  (analyzeResume_payload_spec "resume-1" "jd-1"
    (some "Senior Engineer")).2.2.1 "Senior Engineer" rfl (by decide)

/-- C2: the response interceptor throws exactly one `Error`, whose message
follows a fixed priority — with a server response: a truthy
`response.data.detail`, else a truthy `response.data.message`, else
`'Server error'`; without a response but with a request:
`'No response from server. Please check your connection.'`; otherwise a
truthy underlying `error.message`, else
`'An unexpected error occurred'`. -/
theorem interceptorErrorMessage_priority (e : AxiosErr) :
    (∀ r s, e.response = some r → r.data.bind (·.detail) = some s → s ≠ "" →
      interceptorErrorMessage e = s) ∧
    (∀ r s, e.response = some r → strTruthy (r.data.bind (·.detail)) = false →
      r.data.bind (·.message) = some s → s ≠ "" →
      interceptorErrorMessage e = s) ∧
    (∀ r, e.response = some r → strTruthy (r.data.bind (·.detail)) = false →
      strTruthy (r.data.bind (·.message)) = false →
      interceptorErrorMessage e = "Server error") ∧
    (e.response = none → e.request = true →
      interceptorErrorMessage e =
        "No response from server. Please check your connection.") ∧
    (∀ s, e.response = none → e.request = false → e.message = some s → s ≠ "" →
      interceptorErrorMessage e = s) ∧
    (e.response = none → e.request = false → strTruthy e.message = false →
      interceptorErrorMessage e = "An unexpected error occurred") := by
  refine ⟨?_, ?_, ?_, ?_, ?_, ?_⟩
  · intro r s hr hd hs
    simp [interceptorErrorMessage, hr, hd, orFalsy, hs]
  · intro r s hr hd hm hs
    rcases hdet : r.data.bind (·.detail) with _ | d
    · simp [interceptorErrorMessage, hr, hdet, hm, orFalsy, hs]
    · rw [hdet] at hd
      simp only [strTruthy, ne_eq, decide_eq_false_iff_not, not_not] at hd
      simp [interceptorErrorMessage, hr, hdet, hd, hm, orFalsy, hs]
  · intro r hr hd hm
    rcases hdet : r.data.bind (·.detail) with _ | d <;>
      rcases hmsg : r.data.bind (·.message) with _ | m <;>
      rw [hdet] at hd <;> rw [hmsg] at hm <;>
      simp only [strTruthy, ne_eq, decide_eq_false_iff_not, not_not] at hd hm <;>
      simp [interceptorErrorMessage, hr, hdet, hmsg, orFalsy, hd, hm]
  · intro hr hq
    simp [interceptorErrorMessage, hr, hq]
  · intro s hr hq hm hs
    simp [interceptorErrorMessage, hr, hq, hm, orFalsy, hs]
  · intro hr hq hm
    rcases hmsg : e.message with _ | m <;> rw [hmsg] at hm <;>
      simp only [strTruthy, ne_eq, decide_eq_false_iff_not, not_not] at hm <;>
      simp [interceptorErrorMessage, hr, hq, hmsg, orFalsy, hm]

/-- Witness for C2: a server response whose `data.detail` is set wins the
priority. -/
theorem interceptorErrorMessage_priority_witness :
    interceptorErrorMessage
      { response := some { data := some { detail := some "Bad request"
                                          message := some "ignored" } }
        request := true
        message := some "Request failed" } = "Bad request" :=
  (interceptorErrorMessage_priority _).1 _ "Bad request" rfl rfl (by decide)

/-- C5: `analyze` is a deterministic function of its inputs — two calls in
different call contexts (call counter, wall clock) on identical inputs
return identical `AnalysisResult` values. -/
theorem analyze_deterministic (e1 e2 : CallEnv) (inp : EngineInputs) :
    analyzeCall e1 inp = analyzeCall e2 inp := rfl

/-- C9: the two score-band classifiers agree — `HistoryPage.getScoreBand`
returns `Strong`/`Moderate`/`Low` exactly when
`AnalysisResults.getScoreBand` returns `Strong Match`/`Moderate Match`/
`Low Match`, and the two `getScoreColor` functions pick the green/yellow/red
class under the same thresholds 80 and 60. -/
theorem scoreBand_classifiers_agree (s : ℚ) :
    (HistoryPage.getScoreBand s = "Strong" ↔
      AnalysisResults.getScoreBand s = "Strong Match") ∧
    (HistoryPage.getScoreBand s = "Moderate" ↔
      AnalysisResults.getScoreBand s = "Moderate Match") ∧
    (HistoryPage.getScoreBand s = "Low" ↔
      AnalysisResults.getScoreBand s = "Low Match") ∧
    (HistoryPage.getScoreColor s = "text-green-600 bg-green-100" ↔
      AnalysisResults.getScoreColor s = "text-green-600") ∧
    (HistoryPage.getScoreColor s = "text-yellow-600 bg-yellow-100" ↔
      AnalysisResults.getScoreColor s = "text-yellow-600") ∧
    (HistoryPage.getScoreColor s = "text-red-600 bg-red-100" ↔
      AnalysisResults.getScoreColor s = "text-red-600") := by
  unfold HistoryPage.getScoreBand AnalysisResults.getScoreBand
    HistoryPage.getScoreColor AnalysisResults.getScoreColor
  split_ifs <;> refine ⟨?_, ?_, ?_, ?_, ?_, ?_⟩ <;> decide

/-- The first element surviving `dropWhile p` fails `p`. -/
theorem dropWhile_head?_false {α : Type} (p : α → Bool) (l : List α) (c : α)
    (h : (l.dropWhile p).head? = some c) : p c = false := by
  induction l with
  | nil => simp [List.dropWhile] at h
  | cons a l ih =>
    by_cases ha : p a = true
    · rw [List.dropWhile_cons_of_pos ha] at h
      exact ih h
    · rw [List.dropWhile_cons_of_neg ha] at h
      simp only [List.head?_cons, Option.some.injEq] at h
      subst h
      simpa using ha

/-- C7: the paste-text path never submits blank text — whenever
`handleTextUpload` invokes `onTextUpload` with a value `v`, that value is
the trimmed input, it is non-empty, it contains a non-whitespace character
(so the blank-input fatal-error branch is unreachable from this path), and
the Submit Text button was enabled. -/
theorem handleTextUpload_no_blank (s v : String)
    (h : handleTextUpload s = some v) :
    v = jsTrim s ∧ v ≠ "" ∧ (∃ c ∈ v.data, c.isWhitespace = false) ∧
    submitTextDisabled s = false := by
  unfold handleTextUpload at h
  split at h
  case isFalse => exact absurd h (by simp)
  case isTrue hne =>
    have hv : v = jsTrim s := (Option.some_injective _ h).symm
    subst hv
    refine ⟨rfl, hne, ?_, ?_⟩
    · have hdata : (jsTrim s).data =
          ((s.data.dropWhile Char.isWhitespace).reverse.dropWhile
            Char.isWhitespace).reverse := rfl
      have hu : (s.data.dropWhile Char.isWhitespace).reverse.dropWhile
          Char.isWhitespace ≠ [] := by
        intro hnil
        apply hne
        apply String.ext
        rw [hdata, hnil]
        rfl
      refine ⟨((s.data.dropWhile Char.isWhitespace).reverse.dropWhile
        Char.isWhitespace).head hu, ?_, ?_⟩
      · rw [hdata, List.mem_reverse]
        exact List.head_mem hu
      · exact dropWhile_head?_false _ _ _ (List.head?_eq_head hu)
    · simp [submitTextDisabled, hne]

/-- Witness for C7 at a concrete pasted text. -/
theorem handleTextUpload_no_blank_witness :
    submitTextDisabled "  hello  " = false :=
  (handleTextUpload_no_blank "  hello  " "hello" (by decide)).2.2.2

/-- C8: evaluation of `handleFile` at the job-description uploader
(`acceptedTypes = ['.pdf', '.txt']`): a 4MB `.txt` job description is
accepted, and the size cap actually enforced is 6MB — contradicting the
documented 3MB limit for job descriptions. -/
theorem handleFile_jd_cap_is_6MB :
    handleFile jdAcceptedTypes { name := "job.txt", size := 4 * 1024 * 1024 } =
      .accepted { name := "job.txt", size := 4 * 1024 * 1024 } ∧
    handleFile jdAcceptedTypes
        { name := "job.txt", size := 6 * 1024 * 1024 + 1 } =
      .rejectedSize 6 := by
  constructor <;> decide

/-- C10: dispatching `RESET` restores every field to its initial value
except `history`, which is kept; and every action other than `SET_HISTORY`
leaves `history` unchanged. -/
theorem analysisReducer_reset_frame (s : AppState) (a : Action)
    (ha : ∀ h : List HistoryItem, a ≠ Action.setHistory h) :
    (analysisReducer s .reset).resume = none ∧
    (analysisReducer s .reset).jobDescription = none ∧
    (analysisReducer s .reset).analysis = none ∧
    (analysisReducer s .reset).loading = false ∧
    (analysisReducer s .reset).error = none ∧
    (analysisReducer s .reset).currentStep = "upload" ∧
    (analysisReducer s .reset).history = s.history ∧
    (analysisReducer s a).history = s.history := by
  refine ⟨rfl, rfl, rfl, rfl, rfl, rfl, rfl, ?_⟩
  cases a <;> first
    | rfl
    | exact absurd rfl (ha _)

/-- Witness for C10 at a concrete state and the `CLEAR_ERROR` action. -/
theorem analysisReducer_reset_frame_witness :
    (analysisReducer
        { resume := some ⟨"r1"⟩
          jobDescription := none
          analysis := none
          history := [⟨"a1", "r1", "j1", 85, "2024-01-01"⟩]
          loading := true
          error := none
          currentStep := "results" } Action.clearError).history =
      [⟨"a1", "r1", "j1", 85, "2024-01-01"⟩] :=
  (analysisReducer_reset_frame _ Action.clearError
    (fun _ h => Action.noConfusion h)).2.2.2.2.2.2.2

/-- C3: when `performAnalysis` runs with a missing resume or job
description it throws `'Both resume and job description are required'`
without sending any analyze request, and afterwards `error` holds that
message, `currentStep` is `'upload'`, `loading` is `false`, and every other
field (`resume`, `jobDescription`, `analysis`, `history`) is unchanged — in
particular `analysis` stays `null`. -/
theorem performAnalysis_guard (env : ServerEnv) (s : AppState)
    (tr : Option String) (h : s.resume = none ∨ s.jobDescription = none) :
    (performAnalysis env s tr).2.1 = [] ∧
    (performAnalysis env s tr).2.2 =
      Except.error "Both resume and job description are required" ∧
    (performAnalysis env s tr).1.error =
      some "Both resume and job description are required" ∧
    (performAnalysis env s tr).1.currentStep = "upload" ∧
    (performAnalysis env s tr).1.loading = false ∧
    (performAnalysis env s tr).1.resume = s.resume ∧
    (performAnalysis env s tr).1.jobDescription = s.jobDescription ∧
    (performAnalysis env s tr).1.analysis = s.analysis ∧
    (performAnalysis env s tr).1.history = s.history := by
  rcases s with ⟨res, jd, an, hist, ld, er, cs⟩
  rcases res with _ | r <;> rcases jd with _ | j <;>
    simp_all [performAnalysis, analysisReducer]

/-- Witness for C3 at the initial state. -/
theorem performAnalysis_guard_witness :
    (performAnalysis ⟨.error "unused", .error "unused"⟩ initialState
        none).2.1 = [] :=
  (performAnalysis_guard ⟨.error "unused", .error "unused"⟩ initialState
    none (Or.inl rfl)).1

/-- Together the three stats filters of `HistoryPage` count every item
exactly once. -/
theorem history_filter_partition (l : List HistoryItem) :
    HistoryPage.strongCount l + HistoryPage.moderateCount l +
      HistoryPage.lowCount l = l.length := by
  unfold HistoryPage.strongCount HistoryPage.moderateCount HistoryPage.lowCount
  induction l with
  | nil => rfl
  | cons a l ih =>
    by_cases h80 : (80 : ℚ) ≤ a.score
    · have h2 : ¬(a.score ≥ 60 ∧ a.score < 80) :=
        fun hc => absurd hc.2 (not_lt.2 h80)
      have h3 : ¬(a.score < 60) := not_lt.2 (le_trans (by norm_num) h80)
      rw [List.filter_cons_of_pos (by simpa using h80),
        List.filter_cons_of_neg (by simpa using h2),
        List.filter_cons_of_neg (by simpa using h3),
        List.length_cons, List.length_cons]
      omega
    · by_cases h60 : (60 : ℚ) ≤ a.score
      · have h2 : a.score ≥ 60 ∧ a.score < 80 := ⟨h60, not_le.1 h80⟩
        have h3 : ¬(a.score < 60) := not_lt.2 h60
        rw [List.filter_cons_of_neg (by simpa using h80),
          List.filter_cons_of_pos (by simpa using h2),
          List.filter_cons_of_neg (by simpa using h3),
          List.length_cons, List.length_cons]
        omega
      · have h2 : ¬(a.score ≥ 60 ∧ a.score < 80) :=
          fun hc => absurd hc.1 h60
        rw [List.filter_cons_of_neg (by simpa using h80),
          List.filter_cons_of_neg (by simpa using h2),
          List.filter_cons_of_pos (by simpa using not_le.1 h60),
          List.length_cons, List.length_cons]
        omega

/-- C6: for a history list whose scores lie in `[0, 100]`, the Strong,
Moderate and Low counters of the stats summary add up to the number of
items, and `getScoreBand` assigns every such score exactly one band
(the bands `[80, 100]`, `[60, 80)` and `[0, 60)` partition the range). -/
theorem historyStats_partition (history : List HistoryItem)
    (_hscore : ∀ i ∈ history, 0 ≤ i.score ∧ i.score ≤ 100) :
    HistoryPage.strongCount history + HistoryPage.moderateCount history +
      HistoryPage.lowCount history = history.length ∧
    (∀ s : ℚ, 0 ≤ s → s ≤ 100 →
      (HistoryPage.getScoreBand s = "Strong" ↔ 80 ≤ s) ∧
      (HistoryPage.getScoreBand s = "Moderate" ↔ 60 ≤ s ∧ s < 80) ∧
      (HistoryPage.getScoreBand s = "Low" ↔ s < 60)) := by
  refine ⟨history_filter_partition history, ?_⟩
  intro s _ _
  unfold HistoryPage.getScoreBand
  split_ifs with h1 h2
  · exact ⟨iff_of_true rfl h1,
      iff_of_false (by decide) (fun hc => absurd hc.2 (not_lt.2 h1)),
      iff_of_false (by decide) (not_lt.2 (le_trans (by norm_num) h1))⟩
  · exact ⟨iff_of_false (by decide) h1,
      iff_of_true rfl ⟨h2, not_le.1 h1⟩,
      iff_of_false (by decide) (not_lt.2 h2)⟩
  · exact ⟨iff_of_false (by decide) h1,
      iff_of_false (by decide) (fun hc => absurd hc.1 h2),
      iff_of_true rfl (not_le.1 h2)⟩

/-- Witness for C6 at a concrete three-item history. -/
theorem historyStats_partition_witness :
    HistoryPage.strongCount
        [⟨"a1", "r", "j", 85, "d"⟩, ⟨"a2", "r", "j", 70, "d"⟩,
          ⟨"a3", "r", "j", 30, "d"⟩] +
      HistoryPage.moderateCount
        [⟨"a1", "r", "j", 85, "d"⟩, ⟨"a2", "r", "j", 70, "d"⟩,
          ⟨"a3", "r", "j", 30, "d"⟩] +
      HistoryPage.lowCount
        [⟨"a1", "r", "j", 85, "d"⟩, ⟨"a2", "r", "j", 70, "d"⟩,
          ⟨"a3", "r", "j", 30, "d"⟩] = 3 :=
  (historyStats_partition
    [⟨"a1", "r", "j", 85, "d"⟩, ⟨"a2", "r", "j", 70, "d"⟩,
      ⟨"a3", "r", "j", 30, "d"⟩] (by decide)).1

/-- The canonical ids of a detection list, in order. -/
def idsOf (l : List Detection) : List String := l.map (·.canonical_id)

/-- Every element of `dedupByIdGo seen l` comes from `l`. -/
theorem mem_dedupByIdGo {x : Detection} :
    ∀ {seen : List String} {l : List Detection},
      x ∈ dedupByIdGo seen l → x ∈ l := by
  intro seen l
  induction l generalizing seen with
  | nil => intro h; simp [dedupByIdGo] at h
  | cons d ds ih =>
    intro h
    rw [dedupByIdGo] at h
    split at h
    · exact List.mem_cons_of_mem _ (ih h)
    · rcases List.mem_cons.1 h with rfl | h
      · exact List.mem_cons_self _ _
      · exact List.mem_cons_of_mem _ (ih h)

/-- Every element of `dedupById l` comes from `l`. -/
theorem mem_dedupById {x : Detection} {l : List Detection}
    (h : x ∈ dedupById l) : x ∈ l :=
  mem_dedupByIdGo h

/-- `dedupByIdGo` never emits a seen id, and emits each id at most once. -/
theorem dedupByIdGo_nodup :
    ∀ (l : List Detection) (seen : List String),
      (idsOf (dedupByIdGo seen l)).Nodup ∧
      ∀ y ∈ dedupByIdGo seen l, y.canonical_id ∉ seen := by
  intro l
  induction l with
  | nil => intro seen; simp [dedupByIdGo, idsOf]
  | cons d ds ih =>
    intro seen
    rw [dedupByIdGo]
    split
    · exact ⟨(ih seen).1, fun y hy => (ih seen).2 y hy⟩
    · rename_i hseen
      refine ⟨?_, ?_⟩
      · simp only [idsOf, List.map_cons, List.nodup_cons]
        refine ⟨?_, (ih (d.canonical_id :: seen)).1⟩
        intro hmem
        rcases List.mem_map.1 hmem with ⟨y, hy, hid⟩
        exact (ih (d.canonical_id :: seen)).2 y hy (hid ▸ List.mem_cons_self _ _)
      · intro y hy
        rcases List.mem_cons.1 hy with rfl | hy
        · exact hseen
        · exact fun hc => (ih (d.canonical_id :: seen)).2 y hy
            (List.mem_cons_of_mem _ hc)

/-- After the merge step each canonical id occurs at most once. -/
theorem idsOf_dedupById_nodup (l : List Detection) :
    (idsOf (dedupById l)).Nodup :=
  (dedupByIdGo_nodup l []).1

/-- Extracted mentions carry only canonical ids of the ontology. -/
theorem mem_extract_onto {onto : List OntologyEntry} {ds : List Detection}
    {x : Detection} (h : x ∈ extract onto ds) :
    x.canonical_id ∈ ontoIds onto := by
  have hx := mem_dedupById h
  have := List.of_mem_filter hx
  simpa using this

/-- Extraction yields pairwise distinct canonical ids. -/
theorem idsOf_extract_nodup (onto : List OntologyEntry) (ds : List Detection) :
    (idsOf (extract onto ds)).Nodup :=
  idsOf_dedupById_nodup _

/-- The three classification filters hit every occurrence of an id in the
job list exactly as often as the list itself does: classification is a
partition. -/
theorem classify_filter_count (resume : List Detection) (l : List Detection)
    (id : String) :
    (idsOf (l.filter (fun j => classifySkill resume j = .matched))).count id +
    (idsOf (l.filter (fun j => classifySkill resume j = .missing))).count id +
    (idsOf (l.filter
      (fun j => classifySkill resume j = .niceToHave))).count id =
    (idsOf l).count id := by
  induction l with
  | nil => rfl
  | cons a l ih =>
    rcases hc : classifySkill resume a with _ | _ | _
    · rw [List.filter_cons_of_pos (by simp [hc]),
        List.filter_cons_of_neg (by simp [hc]),
        List.filter_cons_of_neg (by simp [hc])]
      simp only [idsOf, List.map_cons, List.count_cons] at ih ⊢
      omega
    · rw [List.filter_cons_of_neg (by simp [hc]),
        List.filter_cons_of_pos (by simp [hc]),
        List.filter_cons_of_neg (by simp [hc])]
      simp only [idsOf, List.map_cons, List.count_cons] at ih ⊢
      omega
    · rw [List.filter_cons_of_neg (by simp [hc]),
        List.filter_cons_of_neg (by simp [hc]),
        List.filter_cons_of_pos (by simp [hc])]
      simp only [idsOf, List.map_cons, List.count_cons] at ih ⊢
      omega

/-- The ids of `matched_skills` are the ids of the job mentions classified
`matched`. -/
theorem idsOf_matchedSkills (onto : List OntologyEntry)
    (resume jobs : List Detection) :
    (matchedSkills onto resume jobs).map MatchedSkill.canonical_id =
      idsOf (jobs.filter (fun j => classifySkill resume j = .matched)) := by
  simp [matchedSkills, idsOf, List.map_map]

/-- The ids of `missing_skills` are the ids of the job mentions classified
`missing`. -/
theorem idsOf_missingSkills (onto : List OntologyEntry)
    (resume jobs : List Detection) :
    (missingSkills onto resume jobs).map GapSkill.canonical_id =
      idsOf (jobs.filter (fun j => classifySkill resume j = .missing)) := by
  simp [missingSkills, idsOf, List.map_map]

/-- The ids of `nice_to_have_skills` are the ids of the job mentions
classified `nice_to_have`. -/
theorem idsOf_niceToHaveSkills (onto : List OntologyEntry)
    (resume jobs : List Detection) :
    (niceToHaveSkills onto resume jobs).map GapSkill.canonical_id =
      idsOf (jobs.filter (fun j => classifySkill resume j = .niceToHave)) := by
  simp [niceToHaveSkills, idsOf, List.map_map]

/-- The canonical ids of the concatenation of the three skill lists of an
analysis result — exactly the skill list `prepareChartData` iterates. -/
def classifiedIds (a : AnalysisResult) : List String :=
  a.matched_skills.map MatchedSkill.canonical_id ++
    a.missing_skills.map GapSkill.canonical_id ++
    a.nice_to_have_skills.map GapSkill.canonical_id

/-- The skill lists of `analyze` are the three classification lists over
the extracted mentions. -/
theorem analyze_skill_lists (inp : EngineInputs) :
    (analyze inp).matched_skills =
      matchedSkills inp.ontology (extract inp.ontology inp.resumeDetections)
        (extract inp.ontology inp.jobDetections) ∧
    (analyze inp).missing_skills =
      missingSkills inp.ontology (extract inp.ontology inp.resumeDetections)
        (extract inp.ontology inp.jobDetections) ∧
    (analyze inp).nice_to_have_skills =
      niceToHaveSkills inp.ontology (extract inp.ontology inp.resumeDetections)
        (extract inp.ontology inp.jobDetections) :=
  ⟨rfl, rfl, rfl⟩

/-- The classified ids of `analyze` occur exactly as often as in the
extracted job-mention list. -/
theorem classifiedIds_count (inp : EngineInputs) (id : String) :
    (classifiedIds (analyze inp)).count id =
      (idsOf (extract inp.ontology inp.jobDetections)).count id := by
  rw [classifiedIds, (analyze_skill_lists inp).1, (analyze_skill_lists inp).2.1,
    (analyze_skill_lists inp).2.2, idsOf_matchedSkills, idsOf_missingSkills,
    idsOf_niceToHaveSkills, List.count_append, List.count_append]
  exact classify_filter_count _ _ id

/-- C4: in every `AnalysisResult` of `analyze`, the canonical ids of
`matched_skills`, `missing_skills` and `nice_to_have_skills` are pairwise
distinct (each id lands in exactly one list, exactly once), each of them
exists in the Skill Ontology, an id is classified iff it is a job-side
extracted skill, and consequently the chart data `prepareChartData` builds
from the concatenated lists has at most one entry per classified skill. -/
theorem analyze_skill_partition (inp : EngineInputs) :
    (classifiedIds (analyze inp)).Nodup ∧
    (∀ id ∈ classifiedIds (analyze inp),
      (classifiedIds (analyze inp)).count id = 1 ∧
      id ∈ ontoIds inp.ontology) ∧
    (∀ id, id ∈ classifiedIds (analyze inp) ↔
      id ∈ idsOf (extract inp.ontology inp.jobDetections)) ∧
    (prepareChartData (analyze inp)).length ≤
      (classifiedIds (analyze inp)).length := by
  have hjob : (idsOf (extract inp.ontology inp.jobDetections)).Nodup :=
    idsOf_extract_nodup _ _
  have hmem : ∀ id, id ∈ classifiedIds (analyze inp) ↔
      id ∈ idsOf (extract inp.ontology inp.jobDetections) := by
    intro id
    rw [← List.count_pos_iff, ← List.count_pos_iff,
      classifiedIds_count]
  refine ⟨?_, ?_, hmem, ?_⟩
  · rw [List.nodup_iff_count_le_one]
    intro id
    rw [classifiedIds_count]
    exact List.nodup_iff_count_le_one.1 hjob id
  · intro id hid
    refine ⟨?_, ?_⟩
    · rw [classifiedIds_count]
      exact List.count_eq_one_of_mem hjob ((hmem id).1 hid)
    · rcases List.mem_map.1 (List.mem_map.1 ((hmem id).1 hid) |>.elim
        (fun y hy => List.mem_map.2 ⟨y, hy⟩)) with ⟨y, hy, rfl⟩
      exact mem_extract_onto hy
  · rw [prepareChartData]
    calc ((((analyze inp).matched_skills.map matchedEntry ++
            (analyze inp).missing_skills.map missingEntry ++
            (analyze inp).nice_to_have_skills.map niceEntry).mergeSort
          (fun x y => decide (y.importance ≤ x.importance))).take 15).length
        ≤ (((analyze inp).matched_skills.map matchedEntry ++
            (analyze inp).missing_skills.map missingEntry ++
            (analyze inp).nice_to_have_skills.map niceEntry).mergeSort
          (fun x y => decide (y.importance ≤ x.importance))).length :=
          by rw [List.length_take]; exact min_le_right _ _
      _ = ((analyze inp).matched_skills.map matchedEntry ++
            (analyze inp).missing_skills.map missingEntry ++
            (analyze inp).nice_to_have_skills.map niceEntry).length :=
          (List.mergeSort_perm _ _).length_eq
      _ = (classifiedIds (analyze inp)).length := by
          simp [classifiedIds]

/-- A concrete engine input: a two-skill ontology, a resume mentioning
Python, a job requiring Python and SQL. -/
def sampleEngineInputs : EngineInputs :=
  { ontology := [⟨"python", "Python", mkRat 1 2⟩, ⟨"sql", "SQL", mkRat 2 5⟩]
    resumeDetections := [⟨"python", mkRat 9 10, false,
      ["5 years of Python development"]⟩]
    jobDetections := [⟨"python", mkRat 19 20, false, ["Python required"]⟩,
      ⟨"sql", mkRat 19 20, false, ["SQL required"]⟩]
    rawSimilarity := some (mkRat 1 2)
    resumeTier := 2
    jobTier := some 1
    targetRole := none
    weights := defaultWeights }

/-- Witness for C4 at a concrete input: `sql` is classified exactly once
and exists in the ontology. -/
theorem analyze_skill_partition_witness :
    (classifiedIds (analyze sampleEngineInputs)).count "sql" = 1 ∧
    "sql" ∈ ontoIds sampleEngineInputs.ontology :=
  (analyze_skill_partition sampleEngineInputs).2.1 "sql" (by decide)

end AlignAI
